import Mathlib

/-!
Shallow embedding of the sidebar extension's core logic (`background.js`):
the site registry (CRUD, drag reorder, import/export), the favicon cache
(TTL lookup, multi-source fetch chain), and the idle/hibernate state machine.
JS numbers are modelled as `Int`/`Nat`, JS `string | undefined` values as
`Option String`, and host APIs (network fetch, URL parsing, blob encoding,
fresh-id generation) as explicit function parameters.
-/

namespace Sidebar

/-- A site record as stored in the registry (the `sites` array of
`background.js`): `{id, name, url, color}`, all string-valued. -/
structure Site where
  id : String
  name : String
  url : String
  color : String
deriving Repr, DecidableEq

/-- The drop-index computation of `handleDrop`:
`let newIndex = isAbove ? targetIndex : targetIndex + 1;
 if (draggedIndex < targetIndex) newIndex--;
 newIndex = Math.max(0, Math.min(newIndex, sites.length - 1));`. -/
def computeNewIndex (draggedIndex targetIndex : Int) (isAbove : Bool) (len : Int) : Int :=
  let newIndex : Int := if isAbove then targetIndex else targetIndex + 1
  let newIndex : Int := if draggedIndex < targetIndex then newIndex - 1 else newIndex
  max 0 (min newIndex (len - 1))

/-- The reorder performed by `handleDrop` when a drop lands on a target button:
compute the insertion index and, when the source guard
`draggedIndex !== newIndex && draggedIndex >= 0 && draggedIndex < sites.length`
holds, splice the dragged element out (`sites.splice(draggedIndex, 1)`) and
back in at the new index (`sites.splice(newIndex, 0, movedSite)`). -/
def handleDrop {α : Type} (sites : List α) (draggedIndex targetIndex : Int)
    (isAbove : Bool) : List α :=
  let newIndex := computeNewIndex draggedIndex targetIndex isAbove (Int.ofNat sites.length)
  if draggedIndex ≠ newIndex ∧ 0 ≤ draggedIndex ∧ draggedIndex < Int.ofNat sites.length then
    match sites[draggedIndex.toNat]? with
    | some movedSite =>
      let removed := sites.take draggedIndex.toNat ++ sites.drop (draggedIndex.toNat + 1)
      removed.take newIndex.toNat ++ movedSite :: removed.drop newIndex.toNat
    | none => sites
  else sites

/-- JS truthiness of a `string | undefined | null` value: `undefined`/`null`
and the empty string are falsy, every other string is truthy. -/
def isTruthy : Option String → Bool
  | some s => !(s == "")
  | none => false

/-- JS `x || d` for a string-or-undefined field (used by `handleFileImport`
as `site.id || generateId()` and `site.color || '#4a9eff'`): the default is
taken when the field is `undefined` or the empty string. -/
def orDefault (x : Option String) (d : String) : String :=
  match x with
  | some s => if s == "" then d else s
  | none => d

/-- JS `s.startsWith(pre)`, modelled as a prefix test on the character
sequences of the two strings. -/
def jsStartsWith (s pre : String) : Bool :=
  pre.data.isPrefixOf s.data

/-- The URL normalization of `saveSite`:
`if (!url.startsWith('http://') && !url.startsWith('https://'))
   url = 'https://' + url;`. -/
def normalizeUrl (url : String) : String :=
  if !(jsStartsWith url "http://") && !(jsStartsWith url "https://") then
    "https://" ++ url
  else url

/-- `saveSite` for a new site (`editingSiteId === null`): trim the form
fields, reject (leaving the registry unchanged) when either is empty,
normalize the url scheme, and append `{id: generateId(), name, url, color}`.
The fresh id produced by `generateId()` is passed in as `freshId`. -/
def saveSiteAdd (sites : List Site) (rawName rawUrl selectedColor freshId : String) :
    List Site :=
  let name := rawName.trim
  let url := rawUrl.trim
  if name == "" || url == "" then sites
  else
    let url := normalizeUrl url
    sites ++ [{ id := freshId, name := name, url := url, color := selectedColor }]

/-- `saveSite` for an existing site (`editingSiteId` set): trim and validate
the form fields as for an add, then replace the mutable fields of the record
whose id matches, in place (`sites[siteIndex] = {...sites[siteIndex], ...}`);
a stale id is a silent no-op (`findIndex` returns -1). -/
def saveSiteEdit (sites : List Site) (editingSiteId : String)
    (rawName rawUrl selectedColor : String) : List Site :=
  let name := rawName.trim
  let url := rawUrl.trim
  if name == "" || url == "" then sites
  else
    let url := normalizeUrl url
    match sites.findIdx? (fun s => s.id == editingSiteId) with
    | some siteIndex =>
      match sites[siteIndex]? with
      | some old =>
          sites.set siteIndex { old with name := name, url := url, color := selectedColor }
      | none => sites
    | none => sites

/-- The delete action of the context menu:
`sites = sites.filter(s => s.id !== site.id)`. -/
def deleteSite (sites : List Site) (siteId : String) : List Site :=
  sites.filter (fun s => !(s.id == siteId))

/-- A candidate entry parsed from an imported JSON file. A field is `some`
exactly when the JSON object carries it with a string value; `none` models a
missing (or non-string, for `id`/`color`: non-string values are not produced
by export and are out of scope) field. -/
structure RawSite where
  id : Option String
  name : Option String
  url : Option String
  color : Option String
deriving Repr, DecidableEq

/-- The validity filter of `handleFileImport`:
`site && typeof site.name === 'string' && typeof site.url === 'string'`. -/
def isValidRaw (r : RawSite) : Bool :=
  r.name.isSome && r.url.isSome

/-- The per-entry normalization of `handleFileImport`:
`{id: site.id || generateId(), name: site.name, url: site.url,
  color: site.color || '#4a9eff'}`. -/
def normalizeRaw (r : RawSite) (fresh : String) : Site :=
  { id := orDefault r.id fresh
  , name := r.name.getD ""
  , url := r.url.getD ""
  , color := orDefault r.color "#4a9eff" }

/-- Normalize a list of already-validated candidates, drawing one fresh id
per entry from `freshIds` (each call of `generateId()` during the `.map` is
modelled by the next index). -/
def normalizeAll (freshIds : Nat → String) (k : Nat) : List RawSite → List Site
  | [] => []
  | r :: rest => normalizeRaw r (freshIds k) :: normalizeAll freshIds (k + 1) rest

/-- The `validSites` array of `handleFileImport`: filter the candidates by the
string-typed-fields check, then normalize each survivor. -/
def validSites (raw : List RawSite) (freshIds : Nat → String) : List Site :=
  normalizeAll freshIds 0 (raw.filter isValidRaw)

/-- Import mode chosen in the `confirm` dialog of `handleFileImport`:
OK = replace, Cancel = merge. -/
inductive ImportMode
  | replace
  | merge
deriving Repr, DecidableEq

/-- Outcome reported by `handleFileImport` for a well-formed JSON array:
either the registry was set to `newSites`, or the valid set was empty and the
"no valid sites" alert was shown without mutating anything. -/
inductive ImportOutcome
  | imported (newSites : List Site)
  | nothingToImport
deriving Repr, DecidableEq

/-- `handleFileImport` on a parsed JSON array of candidates: build
`validSites`; if empty, alert and return without touching the registry;
otherwise in replace mode set `sites = validSites`, and in merge mode append
exactly the valid entries whose url is not in
`new Set(sites.map(s => s.url))`, keeping their imported order. Returns the
outcome together with the registry contents after the call. -/
def handleFileImport (sites : List Site) (raw : List RawSite) (mode : ImportMode)
    (freshIds : Nat → String) : ImportOutcome × List Site :=
  let valid := validSites raw freshIds
  if valid.length == 0 then (ImportOutcome.nothingToImport, sites)
  else
    match mode with
    | ImportMode.replace => (ImportOutcome.imported valid, valid)
    | ImportMode.merge =>
      let existingUrls := sites.map Site.url
      let newSites := valid.filter (fun s => !(existingUrls.contains s.url))
      (ImportOutcome.imported (sites ++ newSites), sites ++ newSites)

/-- The view of a registry `Site` as the JSON object produced for it by
`exportSites` (`JSON.stringify(sites, null, 2)`) and read back by the import
parser: every field is present with its string value. JSON
serialization followed by parsing is the identity on string fields, so it is
modelled as such. -/
def siteToRaw (s : Site) : RawSite :=
  { id := some s.id, name := some s.name, url := some s.url, color := some s.color }

/-- `exportSites` as seen by a subsequent import: the current registry order,
verbatim, as a list of JSON site objects. -/
def exportSites (sites : List Site) : List RawSite :=
  sites.map siteToRaw

/-- The spec's description of the import result, stated from the spec's own
words (for comparison with `handleFileImport`): an empty valid set leaves the
registry untouched; replace mode makes the registry exactly the valid set;
merge mode appends, after the existing entries and in imported order, the
valid entries whose url is absent from the pre-import registry, dropping
those whose url already exists. -/
def importResultSpec (current valid : List Site) (mode : ImportMode) : List Site :=
  if valid = [] then current
  else
    match mode with
    | ImportMode.replace => valid
    | ImportMode.merge =>
        current ++ valid.filter (fun s => !(decide (s.url ∈ current.map Site.url)))

/-- `CACHE_DURATION = 7 * 24 * 60 * 60 * 1000`: seven days in milliseconds. -/
def CACHE_DURATION : Nat := 7 * 24 * 60 * 60 * 1000

/-- One record of the IndexedDB favicon store (`keyPath: 'domain'`):
`{domain, dataUrl, timestamp}`. -/
structure CacheEntry where
  domain : String
  dataUrl : String
  timestamp : Nat
deriving Repr, DecidableEq

/-- The favicon-cache side state: whether `initDB` succeeded (`db` is
non-null), and the contents of the `favicons` object store, at most one entry
per domain. -/
structure FaviconDB where
  db : Bool
  store : List CacheEntry
deriving Repr, DecidableEq

/-- Key lookup in the object store (IndexedDB `store.get(domain)`). -/
def lookupEntry (store : List CacheEntry) (domain : String) : Option CacheEntry :=
  store.find? (fun e => e.domain == domain)

/-- Keyed write to the object store (IndexedDB `store.put(...)` with
`keyPath: 'domain'`): replace the entry for the key if present, otherwise add
one. -/
def putEntry (store : List CacheEntry) (e : CacheEntry) : List CacheEntry :=
  match lookupEntry store e.domain with
  | some _ => store.map (fun x => if x.domain == e.domain then e else x)
  | none => store ++ [e]

/-- `getCachedFavicon(domain)`: resolve `null` when the DB is unavailable or
the key is absent; when a record exists, return its data url only if
`Date.now() - result.timestamp < CACHE_DURATION`, else resolve `null`
("Expired or not found"). `now` stands for `Date.now()`. -/
def getCachedFavicon (s : FaviconDB) (domain : String) (now : Nat) : Option String :=
  if !s.db then none
  else
    match lookupEntry s.store domain with
    | some result =>
        if now - result.timestamp < CACHE_DURATION then some result.dataUrl
        else none
    | none => none

/-- `cacheFavicon(domain, dataUrl)`: a no-op when the DB is unavailable,
otherwise `store.put({domain, dataUrl, timestamp: Date.now()})`. -/
def cacheFavicon (s : FaviconDB) (domain dataUrl : String) (now : Nat) : FaviconDB :=
  if !s.db then s
  else { s with store := putEntry s.store { domain := domain, dataUrl := dataUrl, timestamp := now } }

/-- Outcome of `fetch(url)` for one favicon source: a thrown transport error,
or a response with its `ok` flag and body blob (size in bytes plus contents). -/
inductive FetchOutcome
  | transportError
  | response (ok : Bool) (size : Nat) (body : String)
deriving Repr, DecidableEq

/-- The ordered source list of `fetchAndCacheFavicon` for a domain. -/
def sourcesFor (domain : String) : List String :=
  [ "https://icons.duckduckgo.com/ip3/" ++ domain ++ ".ico"
  , "https://www.google.com/s2/favicons?domain=" ++ domain ++ "&sz=128"
  , "https://favicon.io/favicon/" ++ domain
  , "https://" ++ domain ++ "/favicon.ico"
  , "https://" ++ domain ++ "/apple-touch-icon.png"
  , "https://" ++ domain ++ "/apple-touch-icon-precomposed.png" ]

/-- Whether one fetch attempt of the source loop succeeds: the `fetch` did
not throw, `response.ok` holds, and the blob is not "too small (probably a
placeholder)" (`blob.size < 100` is skipped). -/
def acceptable : FetchOutcome → Bool
  | FetchOutcome.transportError => false
  | FetchOutcome.response ok size _ => ok && !(size < 100)

/-- The `for (const url of sources)` loop of `fetchAndCacheFavicon`, over an
explicit remaining source list. `net` models `fetch`, `encode` models
`blobToDataUrl` (a host `FileReader` API). Returns the resolved value, the
cache state after the loop, the list of urls actually fetched (in order), and
how many times `cacheFavicon` was called. -/
def tryFetchSources (net : String → FetchOutcome) (encode : String → String)
    (s : FaviconDB) (domain : String) (now : Nat) :
    List String → Option String × FaviconDB × List String × Nat
  | [] => (none, s, [], 0)
  | url :: rest =>
    match net url with
    | FetchOutcome.transportError =>
        let r := tryFetchSources net encode s domain now rest
        (r.1, r.2.1, url :: r.2.2.1, r.2.2.2)
    | FetchOutcome.response ok size body =>
        if !ok then
          let r := tryFetchSources net encode s domain now rest
          (r.1, r.2.1, url :: r.2.2.1, r.2.2.2)
        else if size < 100 then
          let r := tryFetchSources net encode s domain now rest
          (r.1, r.2.1, url :: r.2.2.1, r.2.2.2)
        else
          let dataUrl := encode body
          (some dataUrl, cacheFavicon s domain dataUrl now, [url], 1)

/-- `fetchAndCacheFavicon(domain)`: run the source loop over the configured
source list; all sources failing yields `null`. -/
def fetchAndCacheFavicon (net : String → FetchOutcome) (encode : String → String)
    (s : FaviconDB) (domain : String) (now : Nat) :
    Option String × FaviconDB × List String × Nat :=
  tryFetchSources net encode s domain now (sourcesFor domain)

/-- `getFavicon(siteUrl)`: parse the hostname (`new URL(siteUrl).hostname`,
modelled by the host parameter `parseHost`, `none` when the constructor
throws and the `catch` returns `null`); try the cache first and return a
truthy cached value; otherwise run the fetch-and-cache chain. -/
def getFavicon (parseHost : String → Option String) (net : String → FetchOutcome)
    (encode : String → String) (s : FaviconDB) (siteUrl : String) (now : Nat) :
    Option String × FaviconDB × List String × Nat :=
  match parseHost siteUrl with
  | none => (none, s, [], 0)
  | some domain =>
    let cached := getCachedFavicon s domain now
    if isTruthy cached then (cached, s, [], 0)
    else fetchAndCacheFavicon net encode s domain now

/-- `HIBERNATE_TIMEOUT = 5 * 60 * 1000`: five minutes in milliseconds. -/
def HIBERNATE_TIMEOUT : Nat := 5 * 60 * 1000

/-- The sidebar state touched by the auto-hibernate logic: the module-level
mutables `isHibernated`, `lastActivityTime`, `hibernatedUrl`,
`currentSiteUrl` and the pending `hibernateTimer` (modelled by the absolute
time the scheduled `setTimeout` callback would run, `none` when no timer is
pending), plus the iframe's `src`. -/
structure HibState where
  isHibernated : Bool
  lastActivityTime : Nat
  hibernatedUrl : Option String
  currentSiteUrl : Option String
  hibernateTimer : Option Nat
  webFrameSrc : String
deriving Repr, DecidableEq

/-- `hibernate()`: bail out when already hibernated or no site is loaded
(`if (isHibernated || !currentSiteUrl) return`), otherwise set the flag,
capture `hibernatedUrl = currentSiteUrl`, and unload the iframe to
`about:blank`. -/
def hibernate (s : HibState) : HibState :=
  if s.isHibernated || !(isTruthy s.currentSiteUrl) then s
  else
    { s with isHibernated := true
           , hibernatedUrl := s.currentSiteUrl
           , webFrameSrc := "about:blank" }

/-- `wakeFromHibernate()`: bail out when not hibernated; otherwise clear the
flag and, when a url was captured, reload the iframe at it and clear
`hibernatedUrl`. -/
def wakeFromHibernate (s : HibState) : HibState :=
  if !s.isHibernated then s
  else
    let s := { s with isHibernated := false }
    if isTruthy s.hibernatedUrl then
      { s with webFrameSrc := s.hibernatedUrl.getD "", hibernatedUrl := none }
    else s

/-- `checkHibernate()` (the `setTimeout` callback): hibernate only when the
inactive time reached the timeout, a site is loaded, and not already
hibernated; otherwise do nothing. It does not schedule a new timer. -/
def checkHibernate (s : HibState) (now : Nat) : HibState :=
  let inactiveTime := now - s.lastActivityTime
  if HIBERNATE_TIMEOUT ≤ inactiveTime && isTruthy s.currentSiteUrl && !s.isHibernated
  then hibernate s
  else s

/-- `resetActivityTimer()` (every activity listener): stamp
`lastActivityTime = now`, wake if hibernated, then clear any pending timer
and schedule `checkHibernate` to run `HIBERNATE_TIMEOUT` from now. -/
def resetActivityTimer (s : HibState) (now : Nat) : HibState :=
  let s := { s with lastActivityTime := now }
  let s := if s.isHibernated then wakeFromHibernate s else s
  { s with hibernateTimer := some (now + HIBERNATE_TIMEOUT) }

/-- An event driving the hibernate state machine: a user-activity signal at a
time, or the pending timer's callback running at its scheduled time. -/
inductive HibEvent
  | activity (now : Nat)
  | timerFire (now : Nat)
deriving Repr, DecidableEq

/-- One step of the hibernate machine. An activity signal runs
`resetActivityTimer`; the timer event runs `checkHibernate` exactly when a
timer is pending and `now` is its scheduled time (a `setTimeout` callback is
one-shot, so the pending handle is consumed), and is impossible otherwise. -/
def hibStep (s : HibState) : HibEvent → HibState
  | HibEvent.activity now => resetActivityTimer s now
  | HibEvent.timerFire now =>
      if s.hibernateTimer == some now then
        checkHibernate { s with hibernateTimer := none } now
      else s

/-- The per-site half of the spec's registry invariant: non-empty name and
url, and a url carrying an explicit `http://` or `https://` scheme. -/
def SiteOk (s : Site) : Prop :=
  s.name ≠ "" ∧ s.url ≠ ""
  ∧ (jsStartsWith s.url "http://" = true ∨ jsStartsWith s.url "https://" = true)

/-- The spec's registry invariant: pairwise-distinct ids, and every site
well-formed. -/
def RegistryOk (l : List Site) : Prop :=
  (l.map Site.id).Nodup ∧ ∀ s ∈ l, SiteOk s

/-- The splice-adjustment rule exactly as the spec words it: "drop above"
inserts at the target's index, "drop below" at target index + 1, the
insertion index is decremented by one whenever the dragged element's original
index is less than the target's index, and the result is clamped to
`[0, length - 1]`. Stated independently of the source to compare against
`computeNewIndex`. -/
def dropIndexSpec (draggedIndex targetIndex : Int) (isAbove : Bool) (len : Int) : Int :=
  max 0 (min ((if isAbove then targetIndex else targetIndex + 1)
      - (if draggedIndex < targetIndex then 1 else 0)) (len - 1))

/-- C1: the drop position follows the documented splice-adjustment rule
(`computeNewIndex` agrees with the spec's formula everywhere, and its result
lies in `[0, max 0 (length - 1)]`), and on the order `[A,B,C,D]` dragging
index 0 and dropping "below" target index 2 yields `[B,C,A,D]`. -/
theorem c1_reorder_splice_rule :
    (∀ d t ia len, computeNewIndex d t ia len = dropIndexSpec d t ia len)
    ∧ (∀ d t ia len, 0 ≤ computeNewIndex d t ia len
        ∧ computeNewIndex d t ia len ≤ max 0 (len - 1))
    ∧ (∀ a b c e : Site, handleDrop [a, b, c, e] 0 2 false = [b, c, a, e]) := by
  refine ⟨?_, ?_, ?_⟩
  · intro d t ia len
    unfold computeNewIndex dropIndexSpec
    rcases ia <;> rcases lt_or_le d t with h | h <;> simp [h, not_lt.2]
  · intro d t ia len
    unfold computeNewIndex
    constructor
    · exact le_max_left 0 _
    · exact max_le (le_max_left 0 _) (le_trans (min_le_right _ _) (le_max_right 0 _))
  · intro a b c e
    rfl

/-- Auxiliary: filtering the candidate list a second time through the
validity check changes nothing, i.e. invalid candidates contribute nothing to
the valid set. -/
theorem validSites_filter_invalid (raw : List RawSite) (freshIds : Nat → String) :
    validSites (raw.filter isValidRaw) freshIds = validSites raw freshIds := by
  simp [validSites, List.filter_filter]

/-- C3: import behaves per mode. The registry after `handleFileImport` is
exactly what the spec describes (`importResultSpec`): the valid set verbatim
in replace mode; in merge mode the old entries followed, in imported order,
by the valid entries whose url is not an exact string match of an existing
url, with url-colliding entries dropped; and an unchanged registry when the
valid set is empty, which is also exactly when the "nothing to import"
outcome is signalled. Invalid candidates (missing string name or url) are
dropped: filtering them away changes nothing. -/
theorem c3_import_modes (sites : List Site) (raw : List RawSite)
    (mode : ImportMode) (freshIds : Nat → String) :
    (handleFileImport sites raw mode freshIds).2
      = importResultSpec sites (validSites raw freshIds) mode
    ∧ ((handleFileImport sites raw mode freshIds).1 = ImportOutcome.nothingToImport
        ↔ validSites raw freshIds = [])
    ∧ validSites (raw.filter isValidRaw) freshIds = validSites raw freshIds := by
  refine ⟨?_, ?_, validSites_filter_invalid raw freshIds⟩
  · unfold handleFileImport importResultSpec
    by_cases h : validSites raw freshIds = []
    · simp [h]
    · cases mode <;> simp [h]
  · unfold handleFileImport
    by_cases h : validSites raw freshIds = []
    · simp [h]
    · cases mode <;> simp [h]

/-- C10: merge-mode deduplication consults only the pre-import registry.
Two valid imported entries sharing a url that is new to the registry are both
appended, so the post-import registry holds that url twice. -/
theorem c10_merge_dup_urls (sites : List Site) (r1 r2 : RawSite) (u : String)
    (freshIds : Nat → String)
    (h1 : isValidRaw r1 = true) (h2 : isValidRaw r2 = true)
    (hu1 : r1.url = some u) (hu2 : r2.url = some u)
    (hnew : ∀ c ∈ sites, c.url ≠ u) :
    (handleFileImport sites [r1, r2] ImportMode.merge freshIds).2
      = sites ++ [normalizeRaw r1 (freshIds 0), normalizeRaw r2 (freshIds 1)]
    ∧ ((handleFileImport sites [r1, r2] ImportMode.merge freshIds).2.map
        Site.url).count u = 2 := by
  have hvalid : validSites [r1, r2] freshIds
      = [normalizeRaw r1 (freshIds 0), normalizeRaw r2 (freshIds 1)] := by
    simp [validSites, List.filter, h1, h2, normalizeAll]
  have hnu1 : (normalizeRaw r1 (freshIds 0)).url = u := by
    simp [normalizeRaw, hu1]
  have hnu2 : (normalizeRaw r2 (freshIds 1)).url = u := by
    simp [normalizeRaw, hu2]
  have hmem : u ∉ sites.map Site.url := by
    intro hc
    rcases List.mem_map.1 hc with ⟨c, hcmem, hcu⟩
    exact hnew c hcmem hcu
  have hmain : (handleFileImport sites [r1, r2] ImportMode.merge freshIds).2
      = sites ++ [normalizeRaw r1 (freshIds 0), normalizeRaw r2 (freshIds 1)] := by
    unfold handleFileImport
    rw [hvalid]
    simp [List.filter, hnu1, hnu2, hmem]
  refine ⟨hmain, ?_⟩
  rw [hmain]
  have hcount0 : (sites.map Site.url).count u = 0 := List.count_eq_zero.2 hmem
  simp [List.count_append, hcount0, hnu1, hnu2, List.count_cons]

/-- Auxiliary: normalizing the exported view of a registry whose sites all
have truthy (non-empty) id and color reproduces the registry verbatim. -/
theorem normalizeAll_exportSites (sites : List Site) (freshIds : Nat → String)
    (k : Nat) (h : ∀ s ∈ sites, s.id ≠ "" ∧ s.color ≠ "") :
    normalizeAll freshIds k (sites.map siteToRaw) = sites := by
  induction sites generalizing k with
  | nil => rfl
  | cons a l ih =>
    have ha := h a (List.mem_cons_self a l)
    have hl : ∀ s ∈ l, s.id ≠ "" ∧ s.color ≠ "" :=
      fun s hs => h s (List.mem_cons_of_mem a hs)
    simp only [List.map_cons, normalizeAll, ih (k + 1) hl]
    congr 1
    simp [normalizeRaw, siteToRaw, orDefault, ha.1, ha.2]

/-- C8 as stated is refuted by a registry site whose `color` is the empty
string: on re-import the falsy color is replaced by the default `'#4a9eff'`,
so the round-tripped registry differs from the original. -/
theorem c8_roundtrip_counterexample :
    (handleFileImport
        [{ id := "a", name := "n", url := "https://x.test", color := "" }]
        (exportSites [{ id := "a", name := "n", url := "https://x.test", color := "" }])
        ImportMode.replace (fun _ => "fresh")).2
      = [{ id := "a", name := "n", url := "https://x.test", color := "#4a9eff" }]
    ∧ (handleFileImport
        [{ id := "a", name := "n", url := "https://x.test", color := "" }]
        (exportSites [{ id := "a", name := "n", url := "https://x.test", color := "" }])
        ImportMode.replace (fun _ => "fresh")).2
      ≠ [{ id := "a", name := "n", url := "https://x.test", color := "" }] := by
  constructor
  · rfl
  · intro hc
    have : ("#4a9eff" : String) = "" := congrArg Site.color (List.head_eq_of_cons_eq hc)
    simp at this

/-- C8 amended: for every registry state whose sites all have non-empty
(JS-truthy) id and color — which is every state the program itself creates —
exporting all sites and importing the export in replace mode reproduces an
equal ordered sequence, every field preserved; a site with an empty-string
color (or id) instead has that field replaced by the default color (or a
fresh id). -/
theorem c8_roundtrip_replace (sites : List Site) (freshIds : Nat → String)
    (h : ∀ s ∈ sites, s.id ≠ "" ∧ s.color ≠ "") :
    (handleFileImport sites (exportSites sites) ImportMode.replace freshIds).2
      = sites := by
  have hfilter : (exportSites sites).filter isValidRaw = exportSites sites := by
    apply List.filter_eq_self.2
    intro r hr
    rcases List.mem_map.1 hr with ⟨s, _, rfl⟩
    simp [isValidRaw, siteToRaw]
  have hvalid : validSites (exportSites sites) freshIds = sites := by
    unfold validSites
    rw [hfilter]
    exact normalizeAll_exportSites sites freshIds 0 h
  unfold handleFileImport
  rw [hvalid]
  by_cases hnil : sites = []
  · simp [hnil]
  · simp [hnil]

/-- Auxiliary: when some entry sits under the written key, the keyed replace
performed by a put makes the written entry the one found under that key. -/
theorem lookupEntry_map_put (e : CacheEntry) :
    ∀ store : List CacheEntry,
      (lookupEntry store e.domain).isSome = true →
      lookupEntry (store.map (fun x => if x.domain == e.domain then e else x))
        e.domain = some e := by
  intro store
  induction store with
  | nil => intro h; simp [lookupEntry] at h
  | cons a l ih =>
    intro h
    by_cases ha : (a.domain == e.domain) = true
    · rw [List.map_cons, if_pos ha]
      unfold lookupEntry
      exact List.find?_cons_of_pos _ (by simp)
    · rw [List.map_cons, if_neg ha]
      unfold lookupEntry at h ⊢
      have ha' : (a.domain == e.domain) = false := by
        cases hb : (a.domain == e.domain)
        · rfl
        · exact absurd hb ha
      rw [List.find?_cons] at h ⊢
      simp only [ha'] at h ⊢
      exact ih h

/-- Auxiliary: after a keyed put, the written entry is exactly what a lookup
of its key finds. -/
theorem lookupEntry_putEntry (store : List CacheEntry) (e : CacheEntry) :
    lookupEntry (putEntry store e) e.domain = some e := by
  unfold putEntry
  cases h : lookupEntry store e.domain with
  | none =>
    unfold lookupEntry at h ⊢
    rw [List.find?_append, h]
    simp
  | some x =>
    exact lookupEntry_map_put e store (by rw [h]; rfl)

/-- Auxiliary: a source loop in which every remaining source fails (throws,
responds non-ok, or responds with an undersized payload) resolves `null`,
leaves the cache state untouched, fetches every source in order, and never
calls `cacheFavicon`. -/
theorem tryFetchSources_all_fail (net : String → FetchOutcome)
    (encode : String → String) (s : FaviconDB) (domain : String) (now : Nat) :
    ∀ srcs : List String, (∀ v ∈ srcs, acceptable (net v) = false) →
      tryFetchSources net encode s domain now srcs = (none, s, srcs, 0) := by
  intro srcs
  induction srcs with
  | nil => intro _; rfl
  | cons a l ih =>
    intro h
    have ha := h a (List.mem_cons_self a l)
    have hl : ∀ v ∈ l, acceptable (net v) = false :=
      fun v hv => h v (List.mem_cons_of_mem a hv)
    unfold tryFetchSources
    cases hna : net a with
    | transportError => simp [ih hl]
    | response ok size body =>
      unfold acceptable at ha
      rw [hna] at ha
      by_cases hok : ok = true
      · have hs : (size < 100) = True := by
          rw [hok] at ha
          simp at ha
          simp [ha]
        simp [hok, hs, ih hl]
      · have hok' : ok = false := by
          cases ok
          · rfl
          · exact absurd rfl hok
        simp [hok', ih hl]

/-- Auxiliary: the source loop short-circuits at the first acceptable source:
every earlier source is fetched and skipped, the winning body is encoded and
written to the cache through one `cacheFavicon` call, later sources are not
fetched. -/
theorem tryFetchSources_first_success (net : String → FetchOutcome)
    (encode : String → String) (s : FaviconDB) (domain : String) (now : Nat)
    (pre : List String) (u : String) (post : List String) (size : Nat)
    (body : String)
    (hpre : ∀ v ∈ pre, acceptable (net v) = false)
    (hu : net u = FetchOutcome.response true size body)
    (hsize : ¬ size < 100) :
    tryFetchSources net encode s domain now (pre ++ u :: post)
      = (some (encode body), cacheFavicon s domain (encode body) now,
          pre ++ [u], 1) := by
  induction pre with
  | nil =>
    simp only [List.nil_append]
    unfold tryFetchSources
    rw [hu]
    simp [hsize]
  | cons a l ih =>
    have ha := hpre a (List.mem_cons_self a l)
    have hl : ∀ v ∈ l, acceptable (net v) = false :=
      fun v hv => hpre v (List.mem_cons_of_mem a hv)
    simp only [List.cons_append]
    unfold tryFetchSources
    cases hna : net a with
    | transportError => simp [ih hl]
    | response ok size' body' =>
      unfold acceptable at ha
      rw [hna] at ha
      by_cases hok : ok = true
      · have hs : (size' < 100) = True := by
          rw [hok] at ha
          simp at ha
          simp [ha]
        simp [hok, hs, ih hl]
      · have hok' : ok = false := by
          cases ok
          · rfl
          · exact absurd rfl hok
        simp [hok', ih hl]

/-- Auxiliary: the source loop calls `cacheFavicon` at most once. -/
theorem tryFetchSources_cacheCalls (net : String → FetchOutcome)
    (encode : String → String) (s : FaviconDB) (domain : String) (now : Nat) :
    ∀ srcs : List String,
      (tryFetchSources net encode s domain now srcs).2.2.2 ≤ 1 := by
  intro srcs
  induction srcs with
  | nil => simp [tryFetchSources]
  | cons a l ih =>
    unfold tryFetchSources
    cases net a with
    | transportError => simpa using ih
    | response ok size body =>
      by_cases hok : ok = true <;> by_cases hs : size < 100 <;>
        simp [hok, hs, ih]

/-- Auxiliary: the cache state after a source loop is either untouched or the
result of one keyed write for the resolved domain. -/
theorem tryFetchSources_state (net : String → FetchOutcome)
    (encode : String → String) (s : FaviconDB) (domain : String) (now : Nat) :
    ∀ srcs : List String,
      (tryFetchSources net encode s domain now srcs).2.1 = s
      ∨ ∃ d, (tryFetchSources net encode s domain now srcs).2.1
          = cacheFavicon s domain d now := by
  intro srcs
  induction srcs with
  | nil => exact Or.inl rfl
  | cons a l ih =>
    unfold tryFetchSources
    cases net a with
    | transportError => simpa using ih
    | response ok size body =>
      by_cases hok : ok = true
      · subst hok
        by_cases hs : size < 100
        · simpa [hs] using ih
        · exact Or.inr ⟨encode body, by simp [hs]⟩
      · have hok' : ok = false := by
          cases ok
          · rfl
          · exact absurd rfl hok
        subst hok'
        simpa using ih

/-- Auxiliary: a source loop over at least one source fetches at least one
url. -/
theorem tryFetchSources_tried_ne_nil (net : String → FetchOutcome)
    (encode : String → String) (s : FaviconDB) (domain : String) (now : Nat)
    (a : String) (l : List String) :
    (tryFetchSources net encode s domain now (a :: l)).2.2.1 ≠ [] := by
  unfold tryFetchSources
  cases net a with
  | transportError => simp
  | response ok size body =>
    by_cases hok : ok = true <;> by_cases hs : size < 100 <;> simp [hok, hs]

/-- C2: with the cache database open and an entry stored for the resolved
domain holding a (truthy) data url, `getFavicon` returns the cached image
data with no fetch issued exactly when `now - fetchedAt < 7 days`; an entry
fetched 7 or more days ago is treated as a miss — the whole fetch chain runs
against the unchanged store (nothing is deleted: after the chain the domain
still has an entry) and at least one source is fetched. -/
theorem c2_cache_ttl (parseHost : String → Option String)
    (net : String → FetchOutcome) (encode : String → String) (s : FaviconDB)
    (siteUrl domain : String) (now : Nat) (e : CacheEntry)
    (hdb : s.db = true)
    (hparse : parseHost siteUrl = some domain)
    (hlook : lookupEntry s.store domain = some e)
    (hval : e.dataUrl ≠ "") :
    (now - e.timestamp < CACHE_DURATION →
        getFavicon parseHost net encode s siteUrl now = (some e.dataUrl, s, [], 0))
    ∧ (¬ now - e.timestamp < CACHE_DURATION →
        getFavicon parseHost net encode s siteUrl now
          = fetchAndCacheFavicon net encode s domain now
        ∧ (fetchAndCacheFavicon net encode s domain now).2.2.1 ≠ []
        ∧ lookupEntry (fetchAndCacheFavicon net encode s domain now).2.1.store
            domain ≠ none) := by
  constructor
  · intro hfresh
    have hc : getCachedFavicon s domain now = some e.dataUrl := by
      simp [getCachedFavicon, hdb, hlook, hfresh]
    simp [getFavicon, hparse, hc, isTruthy, hval]
  · intro hstale
    have hc : getCachedFavicon s domain now = none := by
      simp [getCachedFavicon, hdb, hlook, hstale]
    refine ⟨by simp [getFavicon, hparse, hc, isTruthy], ?_, ?_⟩
    · unfold fetchAndCacheFavicon sourcesFor
      exact tryFetchSources_tried_ne_nil net encode s domain now _ _
    · rcases tryFetchSources_state net encode s domain now (sourcesFor domain)
        with hst | ⟨d, hst⟩
      · unfold fetchAndCacheFavicon
        rw [hst, hlook]
        simp
      · unfold fetchAndCacheFavicon
        rw [hst]
        unfold cacheFavicon
        rw [hdb]
        simp only [Bool.not_true, Bool.false_eq_true, if_false]
        have := lookupEntry_putEntry s.store
          { domain := domain, dataUrl := d, timestamp := now }
        simp only at this
        rw [this]
        simp

/-- C4: the fetch chain tries the configured sources strictly in order and
short-circuits at the first acceptable one. If every source before `u` is
unacceptable (transport error, non-ok response, or payload under the 100-byte
threshold) and `u` responds ok with a large-enough payload, the chain fetches
exactly the sources up to and including `u`, encodes the payload as a data
url, writes it to the cache keyed by the domain with `fetchedAt = now` (one
`cacheFavicon` call), and returns it; in general the chain calls
`cacheFavicon` at most once. -/
theorem c4_fetch_chain (net : String → FetchOutcome) (encode : String → String)
    (s : FaviconDB) (domain : String) (now : Nat) (pre post : List String)
    (u : String) (size : Nat) (body : String)
    (hsplit : sourcesFor domain = pre ++ u :: post)
    (hpre : ∀ v ∈ pre, acceptable (net v) = false)
    (hu : net u = FetchOutcome.response true size body)
    (hsize : ¬ size < 100) :
    fetchAndCacheFavicon net encode s domain now
      = (some (encode body), cacheFavicon s domain (encode body) now,
          pre ++ [u], 1)
    ∧ (s.db = true →
        lookupEntry (cacheFavicon s domain (encode body) now).store domain
          = some { domain := domain, dataUrl := encode body, timestamp := now })
    ∧ (∀ srcs : List String,
        (tryFetchSources net encode s domain now srcs).2.2.2 ≤ 1) := by
  refine ⟨?_, ?_, tryFetchSources_cacheCalls net encode s domain now⟩
  · unfold fetchAndCacheFavicon
    rw [hsplit]
    exact tryFetchSources_first_success net encode s domain now pre u post
      size body hpre hu hsize
  · intro hdb
    unfold cacheFavicon
    rw [hdb]
    simp only [Bool.not_true, Bool.false_eq_true, if_false]
    have := lookupEntry_putEntry s.store
      { domain := domain, dataUrl := encode body, timestamp := now }
    simpa using this

/-- C5: icon resolution degrades to `null` (the embedding is a total function
so no exception escapes). A site url whose hostname does not parse yields
`null` immediately with no fetch and no cache touch; and when the hostname
parses but the cache misses and every configured source fails or returns an
undersized payload, the resolution returns `null`, fetches every source, and
leaves the cache store unmodified — no negative entry is written. -/
theorem c5_null_on_failure (parseHost : String → Option String)
    (net : String → FetchOutcome) (encode : String → String) (s : FaviconDB)
    (siteUrl domain : String) (now : Nat)
    (hparse : parseHost siteUrl = some domain)
    (hmiss : isTruthy (getCachedFavicon s domain now) = false)
    (hfail : ∀ v ∈ sourcesFor domain, acceptable (net v) = false) :
    getFavicon parseHost net encode s siteUrl now
      = (none, s, sourcesFor domain, 0)
    ∧ (∀ su, parseHost su = none →
        getFavicon parseHost net encode s su now = (none, s, [], 0)) := by
  constructor
  · have hchain := tryFetchSources_all_fail net encode s domain now
      (sourcesFor domain) hfail
    simp [getFavicon, hparse, hmiss, fetchAndCacheFavicon, hchain]
  · intro su hsu
    simp [getFavicon, hsu]

/-- C6: the idle/hibernate timeline with `T = 5 minutes`. After an activity
signal at `t = 0` with a loaded site, the machine is active with the single
idle timer armed for `t = 300000 ms`; no timer event before that time
hibernates; the timer firing at `t = 300000` with no further activity
hibernates and captures the loaded site's address; a subsequent activity
signal (at `t = 301000`) restores the active state, reloads the captured
address into the frame, and clears the pending url. -/
theorem c6_hibernate_timeline (s0 s1 s2 s3 : HibState) (u : String)
    (hurl : s0.currentSiteUrl = some u) (hne : u ≠ "")
    (hact : s0.isHibernated = false)
    (h1 : s1 = hibStep s0 (HibEvent.activity 0))
    (h2 : s2 = hibStep s1 (HibEvent.timerFire HIBERNATE_TIMEOUT))
    (h3 : s3 = hibStep s2 (HibEvent.activity (HIBERNATE_TIMEOUT + 1000))) :
    (s1.isHibernated = false ∧ s1.hibernateTimer = some HIBERNATE_TIMEOUT)
    ∧ (∀ t, t < HIBERNATE_TIMEOUT →
        (hibStep s1 (HibEvent.timerFire t)).isHibernated = false)
    ∧ (s2.isHibernated = true ∧ s2.hibernatedUrl = some u
        ∧ s2.webFrameSrc = "about:blank")
    ∧ (s3.isHibernated = false ∧ s3.webFrameSrc = u
        ∧ s3.hibernatedUrl = none) := by
  have e1 : s1 =
      { s0 with
        lastActivityTime := 0,
        hibernateTimer := some HIBERNATE_TIMEOUT } := by
    rw [h1]
    simp [hibStep, resetActivityTimer, hact]
  have e2 : s2 =
      { s0 with
        lastActivityTime := 0,
        hibernateTimer := none,
        isHibernated := true,
        hibernatedUrl := some u,
        webFrameSrc := "about:blank" } := by
    rw [h2, e1]
    simp [hibStep, checkHibernate, hibernate, isTruthy, hurl, hne, hact]
  refine ⟨by rw [e1]; exact ⟨hact, rfl⟩, ?_, ?_, ?_⟩
  · intro t ht
    rw [e1]
    have hne' : ¬ (HIBERNATE_TIMEOUT = t) := by omega
    simp [hibStep, hne', hact]
  · rw [e2]
    exact ⟨rfl, rfl, rfl⟩
  · rw [h3, e2]
    simp [hibStep, resetActivityTimer, wakeFromHibernate, isTruthy, hne]

/-- C6 witness: the timeline at a concrete start state. -/
theorem c6_hibernate_timeline_witness :
    ((hibStep (⟨false, 0, none, some "https://a.test", none, "start"⟩ : HibState)
        (HibEvent.activity 0)).isHibernated = false)
    ∧ ((hibStep
        (hibStep (⟨false, 0, none, some "https://a.test", none, "start"⟩ : HibState)
          (HibEvent.activity 0))
        (HibEvent.timerFire 0)).isHibernated = false)
    ∧ ((hibStep
        (hibStep (⟨false, 0, none, some "https://a.test", none, "start"⟩ : HibState)
          (HibEvent.activity 0))
        (HibEvent.timerFire HIBERNATE_TIMEOUT)).isHibernated = true) := by
  have h := c6_hibernate_timeline
    ⟨false, 0, none, some "https://a.test", none, "start"⟩ _ _ _
    "https://a.test" rfl (by decide) rfl rfl rfl rfl
  exact ⟨h.1.1, h.2.1 0 (by norm_num [HIBERNATE_TIMEOUT]), h.2.2.1.1⟩

/-- C9 fails as stated: when the idle timer fires with no content resource
loaded, the state stays active and nothing is hibernated, but the timer is
NOT restarted — `checkHibernate` schedules nothing, so no timer remains
pending (in particular none for another full period). -/
theorem c9_noop_fire_counterexample :
    (hibStep (⟨false, 0, none, none, some HIBERNATE_TIMEOUT, "start"⟩ : HibState)
      (HibEvent.timerFire HIBERNATE_TIMEOUT)).isHibernated = false
    ∧ (hibStep (⟨false, 0, none, none, some HIBERNATE_TIMEOUT, "start"⟩ : HibState)
      (HibEvent.timerFire HIBERNATE_TIMEOUT)).hibernateTimer = none := by
  constructor
  · rfl
  · rfl

/-- C9 amended: when the pending idle timer fires while no content resource
is loaded, no hibernation occurs and the state is unchanged except that the
one-shot timer is now spent: no new idle timer is scheduled (the timer is
re-armed only by the next activity signal). -/
theorem c9_noop_fire_no_restart (s : HibState) (now : Nat)
    (htimer : s.hibernateTimer = some now)
    (hnosite : isTruthy s.currentSiteUrl = false) :
    hibStep s (HibEvent.timerFire now) = { s with hibernateTimer := none } := by
  simp [hibStep, htimer, checkHibernate, hnosite]

/-- C9 amended witness: the no-restart step at a concrete state. -/
theorem c9_noop_fire_no_restart_witness :
    hibStep (⟨false, 0, none, some "", some 7, "start"⟩ : HibState)
      (HibEvent.timerFire 7)
      = (⟨false, 0, none, some "", none, "start"⟩ : HibState) :=
  c9_noop_fire_no_restart _ 7 rfl rfl

/-- Auxiliary: a normalized url always carries an explicit scheme. -/
theorem normalizeUrl_hasScheme (url : String) :
    jsStartsWith (normalizeUrl url) "http://" = true
    ∨ jsStartsWith (normalizeUrl url) "https://" = true := by
  unfold normalizeUrl
  by_cases h1 : jsStartsWith url "http://" = true
  · simp [h1]
  · by_cases h2 : jsStartsWith url "https://" = true
    · simp [h2]
    · have hthen : (!(jsStartsWith url "http://")
          && !(jsStartsWith url "https://")) = true := by
        simp [h1, h2]
      rw [if_pos hthen]
      right
      unfold jsStartsWith
      rw [String.data_append]
      exact List.isPrefixOf_iff_prefix.2 (List.prefix_append _ _)

/-- Auxiliary: normalizing a non-empty url yields a non-empty url. -/
theorem normalizeUrl_ne_empty (url : String) (h : url ≠ "") :
    normalizeUrl url ≠ "" := by
  unfold normalizeUrl
  split
  · intro hc
    have hd : ("https://" ++ url).data = ("" : String).data :=
      congrArg String.data hc
    rw [String.data_append] at hd
    have h8 : ("https://" : String).data ≠ [] := by decide
    have : ("https://" : String).data = [] := by
      rcases List.append_eq_nil.1 hd with ⟨ha, _⟩
      exact ha
    exact h8 this
  · exact h

/-- Auxiliary: overwriting a position of a list with the element already
stored there changes nothing. -/
theorem set_self_eq {α : Type} (l : List α) (i : Nat) (a : α)
    (h : l[i]? = some a) : l.set i a = l := by
  induction l generalizing i with
  | nil => simp at h
  | cons b m ih =>
    cases i with
    | zero =>
      simp only [List.getElem?_cons_zero, Option.some.injEq] at h
      rw [h]
      rfl
    | succ j =>
      simp only [List.getElem?_cons_succ] at h
      simp [List.set, ih j h]

/-- Auxiliary: the splice reorder of `handleDrop` permutes the registry. -/
theorem handleDrop_perm {α : Type} (sites : List α) (d t : Int)
    (ia : Bool) : (handleDrop sites d t ia).Perm sites := by
  simp only [handleDrop]
  split
  · cases hm : sites[d.toNat]? with
    | none => exact List.Perm.refl sites
    | some moved =>
      rcases List.getElem?_eq_some_iff.1 hm with ⟨hlt, hget⟩
      have hsplit : sites.take d.toNat ++ moved :: sites.drop (d.toNat + 1)
          = sites := by
        rw [← hget, List.getElem_cons_drop sites d.toNat hlt]
        exact List.take_append_drop d.toNat sites
      refine List.Perm.trans List.perm_middle ?_
      rw [List.take_append_drop]
      refine List.Perm.trans List.perm_middle.symm ?_
      rw [hsplit]
  · exact List.Perm.refl sites

/-- C7 fails as stated: an import is a registry mutation, but
`handleFileImport` only checks that `name` and `url` are strings (the empty
string passes) and performs no scheme normalization, so a replace-mode import
of `[{id: "a", name: "", url: "x", color: "c"}]` leaves the registry holding
a site with an empty name and a scheme-less url. -/
theorem c7_invariant_counterexample :
    (handleFileImport [] [⟨some "a", some "", some "x", some "c"⟩]
        ImportMode.replace (fun _ => "fresh")).2
      = [{ id := "a", name := "", url := "x", color := "c" }]
    ∧ ¬ SiteOk { id := "a", name := "", url := "x", color := "c" } := by
  constructor
  · rfl
  · intro h
    exact h.1 rfl

/-- C7 amended: the add, update, remove, and reorder mutations preserve the
registry invariant — unique ids, non-empty name and url, and an explicit
`http://` or `https://` scheme, with `https://` prefixed when the input
carried neither — provided a freshly generated id is not already present.
Import does not reestablish the invariant (see the counterexample): imported
entries may carry empty names, scheme-less urls, or colliding ids. -/
theorem c7_invariant_preserved (sites : List Site)
    (rawName rawUrl selectedColor freshId editingSiteId siteId : String)
    (draggedIndex targetIndex : Int) (isAbove : Bool)
    (hok : RegistryOk sites)
    (hfresh : freshId ∉ sites.map Site.id) :
    RegistryOk (saveSiteAdd sites rawName rawUrl selectedColor freshId)
    ∧ RegistryOk (saveSiteEdit sites editingSiteId rawName rawUrl selectedColor)
    ∧ RegistryOk (deleteSite sites siteId)
    ∧ RegistryOk (handleDrop sites draggedIndex targetIndex isAbove) := by
  refine ⟨?_, ?_, ?_, ?_⟩
  · simp only [saveSiteAdd]
    by_cases hg : (rawName.trim == "" || rawUrl.trim == "") = true
    · rw [if_pos hg]
      exact hok
    · rw [if_neg hg]
      simp only [Bool.or_eq_true, beq_iff_eq] at hg
      push_neg at hg
      constructor
      · rw [List.map_append]
        simp only [List.map_cons, List.map_nil]
        rw [List.nodup_append]
        refine ⟨hok.1, List.nodup_singleton _, ?_⟩
        intro a ha hb
        rcases List.mem_singleton.1 hb with rfl
        exact hfresh ha
      · intro s hs
        rcases List.mem_append.1 hs with hs | hs
        · exact hok.2 s hs
        · rcases List.mem_singleton.1 hs with rfl
          exact ⟨hg.1, normalizeUrl_ne_empty _ hg.2, normalizeUrl_hasScheme _⟩
  · simp only [saveSiteEdit]
    by_cases hg : (rawName.trim == "" || rawUrl.trim == "") = true
    · rw [if_pos hg]
      exact hok
    · rw [if_neg hg]
      simp only [Bool.or_eq_true, beq_iff_eq] at hg
      push_neg at hg
      split
      next siteIndex hidx =>
        split
        next old hget =>
          constructor
          · rw [List.map_set]
            have hmapget : (sites.map Site.id)[siteIndex]? = some old.id := by
              rw [List.getElem?_map, hget]
              rfl
            rw [set_self_eq _ siteIndex old.id hmapget]
            exact hok.1
          · intro s hs
            rcases List.mem_or_eq_of_mem_set hs with hs | rfl
            · exact hok.2 s hs
            · exact ⟨hg.1, normalizeUrl_ne_empty _ hg.2,
                normalizeUrl_hasScheme _⟩
        next hget => exact hok
      next hidx => exact hok
  · unfold deleteSite
    constructor
    · exact List.Nodup.sublist ((List.filter_sublist sites).map Site.id) hok.1
    · intro s hs
      exact hok.2 s (List.mem_of_mem_filter hs)
  · have hperm := handleDrop_perm sites draggedIndex targetIndex isAbove
    constructor
    · exact ((hperm.map Site.id).nodup_iff).2 hok.1
    · intro s hs
      exact hok.2 s (hperm.mem_iff.1 hs)

/-- C7 amended witness: the four preserved mutations on a concrete
registry. -/
theorem c7_invariant_preserved_witness :
    RegistryOk (saveSiteAdd [⟨"a", "N", "https://n.test", "#fff"⟩]
        "M" "m.test" "#000" "f1")
    ∧ RegistryOk (saveSiteEdit [⟨"a", "N", "https://n.test", "#fff"⟩]
        "a" "M" "m.test" "#000")
    ∧ RegistryOk (deleteSite [⟨"a", "N", "https://n.test", "#fff"⟩] "a")
    ∧ RegistryOk (handleDrop [⟨"a", "N", "https://n.test", "#fff"⟩] 0 0 true) :=
  c7_invariant_preserved [⟨"a", "N", "https://n.test", "#fff"⟩]
    "M" "m.test" "#000" "f1" "a" "a" 0 0 true
    (by constructor
        · decide
        · intro s hs
          rcases List.mem_singleton.1 hs with rfl
          exact ⟨by decide, by decide, Or.inr (by decide)⟩)
    (by decide)

/-- C2 witness: a concrete cache entry fetched within the TTL is returned
with no fetch issued and no state change. -/
theorem c2_cache_ttl_witness :
    getFavicon (fun _ => some "a.test") (fun _ => FetchOutcome.transportError)
      (fun b => b) ⟨true, [⟨"a.test", "data:x", 0⟩]⟩ "https://a.test" 5
      = (some "data:x", ⟨true, [⟨"a.test", "data:x", 0⟩]⟩, [], 0) :=
  (c2_cache_ttl (fun _ => some "a.test") (fun _ => FetchOutcome.transportError)
      (fun b => b) ⟨true, [⟨"a.test", "data:x", 0⟩]⟩ "https://a.test" "a.test"
      5 ⟨"a.test", "data:x", 0⟩ rfl rfl (by decide) (by decide)).1 (by decide)

/-- C4 witness: the first source succeeding short-circuits the chain at a
concrete state. -/
theorem c4_fetch_chain_witness :
    fetchAndCacheFavicon (fun _ => FetchOutcome.response true 200 "B")
      (fun b => b) ⟨true, []⟩ "a.test" 7
      = (some "B", cacheFavicon ⟨true, []⟩ "a.test" "B" 7,
          ["https://icons.duckduckgo.com/ip3/a.test.ico"], 1) :=
  (c4_fetch_chain (fun _ => FetchOutcome.response true 200 "B") (fun b => b)
      ⟨true, []⟩ "a.test" 7 []
      [ "https://www.google.com/s2/favicons?domain=a.test&sz=128"
      , "https://favicon.io/favicon/a.test"
      , "https://a.test/favicon.ico"
      , "https://a.test/apple-touch-icon.png"
      , "https://a.test/apple-touch-icon-precomposed.png" ]
      "https://icons.duckduckgo.com/ip3/a.test.ico" 200 "B"
      (by decide) (fun v hv => absurd hv (List.not_mem_nil v)) rfl
      (by decide)).1

/-- C5 witness: every source failing at a concrete state yields `null` and
an untouched store. -/
theorem c5_null_on_failure_witness :
    getFavicon (fun _ => some "a.test") (fun _ => FetchOutcome.transportError)
      (fun b => b) ⟨true, []⟩ "https://a.test" 9
      = (none, ⟨true, []⟩, sourcesFor "a.test", 0) :=
  (c5_null_on_failure (fun _ => some "a.test")
      (fun _ => FetchOutcome.transportError) (fun b => b) ⟨true, []⟩
      "https://a.test" "a.test" 9 rfl rfl (fun _ _ => rfl)).1

/-- C8 amended witness: the round trip at a concrete registry. -/
theorem c8_roundtrip_replace_witness :
    (handleFileImport [⟨"a", "n", "https://x.test", "#f00"⟩]
        (exportSites [⟨"a", "n", "https://x.test", "#f00"⟩])
        ImportMode.replace (fun _ => "g")).2
      = [⟨"a", "n", "https://x.test", "#f00"⟩] :=
  c8_roundtrip_replace [⟨"a", "n", "https://x.test", "#f00"⟩] (fun _ => "g")
    (by decide)

/-- C10 witness: two imported entries with one new url are both appended by a
concrete merge. -/
theorem c10_merge_dup_urls_witness :
    (handleFileImport []
        [⟨some "i1", some "X", some "https://x.test", some "c"⟩,
         ⟨some "i2", some "Y", some "https://x.test", none⟩]
        ImportMode.merge (fun _ => "g")).2
      = [normalizeRaw ⟨some "i1", some "X", some "https://x.test", some "c"⟩ "g",
         normalizeRaw ⟨some "i2", some "Y", some "https://x.test", none⟩ "g"]
    ∧ (((handleFileImport []
        [⟨some "i1", some "X", some "https://x.test", some "c"⟩,
         ⟨some "i2", some "Y", some "https://x.test", none⟩]
        ImportMode.merge (fun _ => "g")).2.map Site.url).count "https://x.test")
      = 2 :=
  c10_merge_dup_urls [] ⟨some "i1", some "X", some "https://x.test", some "c"⟩
    ⟨some "i2", some "Y", some "https://x.test", none⟩ "https://x.test"
    (fun _ => "g") rfl rfl rfl rfl
    (fun c hc => absurd hc (List.not_mem_nil c))

end Sidebar
